import Mathlib

/-!
Verification development for the sale-tracker watcher script.

The script fetches retailer pages and classifies each as running a sale,
using pure text heuristics.  This file gives a shallow embedding of the
classification engine (keyword matching, members-only detection, sale-type
inference, discount extraction, promotional-image selection, and the
per-brand assembly loop) and proves its specified properties.

Text is modelled as `List Char`.  Python regular-expression scans are
embedded as explicit character-level scanners; each scanner's doc comment
names the regex it embeds.  `findall`-style scanners carry a fuel argument
initialised to the text length, which bounds the scan (every match consumes
at least one character, so the fuel never runs out before the text does).
-/

set_option maxRecDepth 100000

set_option maxHeartbeats 1000000

namespace SaleTracker

/-- Page text and keywords, modelled as lists of characters. -/
abbrev Str := List Char

/-- ASCII uppercase Latin letter, the character class `[A-Z]`. -/
def isUpperLatinChar (c : Char) : Bool :=
  decide (65 ≤ c.toNat ∧ c.toNat ≤ 90)

/-- ASCII lowercase Latin letter. -/
def isLowerLatinChar (c : Char) : Bool :=
  decide (97 ≤ c.toNat ∧ c.toNat ≤ 122)

/-- Any ASCII Latin letter. -/
def isLatinChar (c : Char) : Bool :=
  isUpperLatinChar c || isLowerLatinChar c

/-- Python `str.upper` on one character.  Only ASCII letters are case-mapped;
the non-ASCII characters appearing in this code base (Hangul syllables,
punctuation) are caseless, where Python's Unicode mapping agrees. -/
def upperChar (c : Char) : Char :=
  if isLowerLatinChar c then Char.ofNat (c.toNat - 32) else c

/-- Python `str.lower` on one character (ASCII case mapping, see `upperChar`). -/
def lowerChar (c : Char) : Char :=
  if isUpperLatinChar c then Char.ofNat (c.toNat + 32) else c

/-- Python `text.upper()`. -/
def pyUpper (s : Str) : Str := s.map upperChar

/-- Python `text.lower()`. -/
def pyLower (s : Str) : Str := s.map lowerChar

/-- ASCII decimal digit, the character class `\d` (ASCII fragment). -/
def isPyDigit (c : Char) : Bool :=
  decide (48 ≤ c.toNat ∧ c.toNat ≤ 57)

/-- Code points of the isolated members of the character class `\s` of
Python's `re` on `str`: ASCII whitespace, the file/group/record/unit
separators, NEL, NBSP, and the non-contiguous Unicode space separators. -/
def PY_SPACE_CODES : List Nat :=
  [32, 9, 10, 13, 11, 12, 28, 29, 30, 31, 133, 160, 5760, 8232, 8233,
   8239, 8287, 12288]

/-- The character class `\s` of Python's `re` on `str`: the isolated code
points plus the contiguous run of Unicode space separators. -/
def isPySpace (c : Char) : Bool :=
  PY_SPACE_CODES.contains c.toNat || decide (8192 ≤ c.toNat ∧ c.toNat ≤ 8202)

/-- Python `s.strip()`: remove leading and trailing whitespace. -/
def pyStrip (s : Str) : Str :=
  ((s.dropWhile isPySpace).reverse.dropWhile isPySpace).reverse

/-- The test `re.search(r"[A-Z]", kw)`: does the keyword contain an
uppercase Latin letter? -/
def containsUpperLatin (kw : Str) : Bool := kw.any isUpperLatinChar

/-- Python's `needle in haystack` on strings: contiguous substring
containment (the empty needle is contained in everything). -/
def isSubstr : Str → Str → Bool
  | kw, [] => kw.isEmpty
  | kw, c :: rest => kw.isPrefixOf (c :: rest) || isSubstr kw rest

/-- The per-keyword comparison shared by `detect_sale`,
`detect_members_only` and `infer_sale_type` in the source: a keyword with
an uppercase Latin letter is compared against the uppercased text,
any other keyword by plain substring containment (`in`) in the original
text. -/
def kw_matches (text : Str) (kw : Str) : Bool :=
  if containsUpperLatin kw then isSubstr (pyUpper kw) (pyUpper text)
  else isSubstr kw text

/-- `DEFAULT_KEYWORDS` from the source. -/
def DEFAULT_KEYWORDS : List Str :=
  [("SALE".toList), ("세일".toList), ("할인".toList), ("OFF".toList),
   ("%".toList), ("UP TO".toList), ("EVENT".toList), ("프로모션".toList),
   ("특가".toList)]

/-- `MEMBERS_ONLY_KEYWORDS` from the source. -/
def MEMBERS_ONLY_KEYWORDS : List Str :=
  [("MEMBERS ONLY".toList), ("MEMBER ONLY".toList), ("회원전용".toList),
   ("회원 전용".toList), ("회원공개".toList), ("LOGIN".toList),
   ("SIGN IN".toList)]

/-- `SALE_TYPE_RULES` from the source: category phrase lists, in priority
order. -/
def CLEARANCE_KWS : List Str :=
  [("CLEARANCE".toList), ("클리어런스".toList), ("FINAL SALE".toList),
   ("OUTLET".toList), ("아울렛".toList)]

/-- Refurb phrase list of `SALE_TYPE_RULES`. -/
def REFURB_KWS : List Str :=
  [("REFURB".toList), ("리퍼브".toList), ("B-GRADE".toList),
   ("B GRADE".toList), ("B급".toList), ("리퍼".toList)]

/-- Season-off phrase list of `SALE_TYPE_RULES`. -/
def SEASON_OFF_KWS : List Str :=
  [("SEASON OFF".toList), ("SEASON-OFF".toList), ("SEASONOFF".toList),
   ("시즌오프".toList), ("시즌 오프".toList)]

/-- Members-only phrase list of `SALE_TYPE_RULES`. -/
def MEMBERS_TYPE_KWS : List Str :=
  [("MEMBERS ONLY".toList), ("회원전용".toList), ("회원 전용".toList),
   ("회원공개".toList)]

/-- `SALE_TYPE_RULES` as the ordered association list of the source. -/
def SALE_TYPE_RULES : List (Str × List Str) :=
  [(("clearance".toList), CLEARANCE_KWS),
   (("refurb".toList), REFURB_KWS),
   (("season_off".toList), SEASON_OFF_KWS),
   (("members_only".toList), MEMBERS_TYPE_KWS)]

/-- `detect_sale` from the source: iterate the keywords in order, skip a
falsy (empty) keyword, and return on the first keyword the per-keyword
comparison accepts. -/
def detect_sale (text : Str) : List Str → Bool × Option Str
  | [] => (false, none)
  | kw :: rest =>
    if kw = [] then detect_sale text rest
    else if kw_matches text kw then (true, some kw)
    else detect_sale text rest

/-- `detect_members_only` from the source: its early-returning loop over
`MEMBERS_ONLY_KEYWORDS` is the boolean `any` of the per-keyword
comparison. -/
def detect_members_only (text : Str) : Bool :=
  MEMBERS_ONLY_KEYWORDS.any (kw_matches text)

/-- Python truthiness of an optional string: `None` and the empty string
are falsy. -/
def truthyOpt : Option Str → Bool
  | none => false
  | some s => !(s = [])

/-- The category scan of `infer_sale_type`: return the first category any
of whose phrases matches (the inner early-returning loop over the phrase
list is its boolean `any`). -/
def first_matching_type (text : Str) : List (Str × List Str) → Option Str
  | [] => none
  | (st, kws) :: rest =>
    if kws.any (kw_matches text) then some st
    else first_matching_type text rest

/-- `infer_sale_type` from the source: a truthy hint is returned verbatim,
otherwise the text is scanned against `SALE_TYPE_RULES` in order. -/
def infer_sale_type (text : Str) (hint : Option Str) : Option Str :=
  if truthyOpt hint then hint
  else first_matching_type text SALE_TYPE_RULES

/-- The sale-type glue in `main`: after `infer_sale_type`, a falsy result
is overridden with `"members_only"` when the members-only detector fired
(`if members_only and not sale_type`). -/
def final_sale_type (text : Str) (hint : Option Str) (members_only : Bool) :
    Option Str :=
  let st := infer_sale_type text hint
  if members_only && !(truthyOpt st) then some ("members_only".toList) else st

/-! ## Discount extraction

`extract_max_discount` runs four `re.findall` scans over the uppercased
text and pools every captured number.  Each scan is embedded as a
try-at-position function plus a fuelled driver that advances one character
on failure and jumps past the match on success (Python's leftmost,
non-overlapping `findall` discipline).  For these patterns the regex
engine's backtracking never changes the outcome: `\d`, `\s`, and the
literal characters that follow them are pairwise disjoint classes, so the
greedy maximal munch either succeeds outright or the whole position
fails. -/

/-- Match a literal character sequence at the head of the text. -/
def stripLit : Str → Str → Option Str
  | [], s => some s
  | _, [] => none
  | l :: lr, c :: cr => if c = l then stripLit lr cr else none

/-- `\s*`: drop leading whitespace. -/
def dropSpaces (s : Str) : Str := s.dropWhile isPySpace

/-- `(\d{1,3})` with greedy maximal munch: up to three leading digits and
their numeric value. -/
def takeDigits3 : Str → Option (Nat × Str)
  | [] => none
  | d1 :: r1 =>
    if isPyDigit d1 then
      match r1 with
      | [] => some (d1.toNat - 48, [])
      | d2 :: r2 =>
        if isPyDigit d2 then
          match r2 with
          | [] => some ((d1.toNat - 48) * 10 + (d2.toNat - 48), [])
          | d3 :: r3 =>
            if isPyDigit d3 then
              some (((d1.toNat - 48) * 10 + (d2.toNat - 48)) * 10 + (d3.toNat - 48), r3)
            else some ((d1.toNat - 48) * 10 + (d2.toNat - 48), r2)
        else some (d1.toNat - 48, r1)
    else none

/-- `\s*%?`: drop whitespace, then an optional percent sign. -/
def dropSpacesOptPct (s : Str) : Str :=
  match dropSpaces s with
  | c :: r => if c = '%' then r else c :: r
  | [] => []

/-- One attempted match of `UP\s*TO\s*(\d{1,3})\s*%?` at the current
position. -/
def try_upto (s : Str) : Option (List Nat × Str) := do
  let s1 ← stripLit ("UP".toList) s
  let s2 ← stripLit ("TO".toList) (dropSpaces s1)
  let (n, s3) ← takeDigits3 (dropSpaces s2)
  pure ([n], dropSpacesOptPct s3)

/-- One attempted match of `(최대|MAX)\s*(\d{1,3})\s*%?` at the current
position; the alternation tries `최대` first, as the pattern is written. -/
def try_maxkw (s : Str) : Option (List Nat × Str) := do
  let s1 ← (stripLit ("최대".toList) s).orElse (fun _ => stripLit ("MAX".toList) s)
  let (n, s2) ← takeDigits3 (dropSpaces s1)
  pure ([n], dropSpacesOptPct s2)

/-- One attempted match of `(\d{1,3})\s*-\s*(\d{1,3})\s*%` at the current
position; both endpoints are captured, first endpoint first. -/
def try_range (s : Str) : Option (List Nat × Str) := do
  let (a, s1) ← takeDigits3 s
  let s2 ← stripLit ("-".toList) (dropSpaces s1)
  let (b, s3) ← takeDigits3 (dropSpaces s2)
  let s4 ← stripLit ("%".toList) (dropSpaces s3)
  pure ([a, b], s4)

/-- One attempted match of `(\d{1,3})\s*%` at the current position. -/
def try_bare (s : Str) : Option (List Nat × Str) := do
  let (n, s1) ← takeDigits3 s
  let s2 ← stripLit ("%".toList) (dropSpaces s1)
  pure ([n], s2)

/-- `re.findall` driver: scan left to right, collecting the captures of
each non-overlapping match and resuming after its end. -/
def findallNums (tryAt : Str → Option (List Nat × Str)) : Nat → Str → List Nat
  | 0, _ => []
  | _ + 1, [] => []
  | fuel + 1, c :: rest =>
    match tryAt (c :: rest) with
    | some (ns, after) => ns ++ findallNums tryAt fuel after
    | none => findallNums tryAt fuel rest

/-- `re.findall(r"UP\s*TO\s*(\d{1,3})\s*%?", upper)`, values parsed. -/
def findall_upto (s : Str) : List Nat := findallNums try_upto s.length s

/-- `re.findall(r"(최대|MAX)\s*(\d{1,3})\s*%?", upper)`, values parsed. -/
def findall_maxkw (s : Str) : List Nat := findallNums try_maxkw s.length s

/-- `re.findall(r"(\d{1,3})\s*-\s*(\d{1,3})\s*%", upper)`, both endpoints,
in match order. -/
def findall_range (s : Str) : List Nat := findallNums try_range s.length s

/-- `re.findall(r"(\d{1,3})\s*%", upper)`, values parsed. -/
def findall_bare (s : Str) : List Nat := findallNums try_bare s.length s

/-- The pooled candidate list `nums` of `extract_max_discount`, in the
order the source appends: up-to matches, then 최대/MAX matches, then range
endpoints, then bare percentages. -/
def discount_candidates (text : Str) : List Nat :=
  let upper := pyUpper text
  findall_upto upper ++ findall_maxkw upper ++ findall_range upper ++ findall_bare upper

/-- The bounding step `[n for n in nums if 1 <= n <= 95]`. -/
def bound_filter (nums : List Nat) : List Nat :=
  nums.filter (fun n => decide (1 ≤ n ∧ n ≤ 95))

/-- `extract_max_discount` from the source: pool the candidates of all four
patterns, bound them to `[1, 95]`, and return the maximum of the survivors
(`max(nums) if nums else None`). -/
def extract_max_discount (text : Str) : Option Nat :=
  (bound_filter (discount_candidates text)).max?

/-! ## HTML-to-text normalisation

`normalize_text` applies four `re.sub` passes: strip `<script>…</script>`
blocks, strip `<style>…</style>` blocks, strip remaining tags, collapse
whitespace runs; then `strip()`. -/

/-- Case-insensitive literal match at the head of the text (`re.I`); the
literal is given in lowercase. -/
def ciStripLit : Str → Str → Option Str
  | [], s => some s
  | _, [] => none
  | l :: lr, c :: cr => if lowerChar c = l then ciStripLit lr cr else none

/-- Rest of the text after the first case-insensitive occurrence of the
literal, the lazy `[\s\S]*?` search of the block patterns. -/
def findCIUnanchored (lit : Str) : Nat → Str → Option Str
  | 0, _ => none
  | _ + 1, [] => none
  | fuel + 1, c :: rest =>
    match ciStripLit lit (c :: rest) with
    | some after => some after
    | none => findCIUnanchored lit fuel rest

/-- `re.sub(r"<open[\s\S]*?</close>", " ", s, flags=re.I)` for a paired
block: at each position, an occurrence of the opening literal followed
(lazily) by the closing literal is replaced by one space; an unpaired
opening is left as ordinary text, as the regex then fails at that
position. -/
def subBlock (openL closeL : Str) : Nat → Str → Str
  | 0, s => s
  | _ + 1, [] => []
  | fuel + 1, c :: rest =>
    match ciStripLit openL (c :: rest) with
    | some afterOpen =>
      match findCIUnanchored closeL afterOpen.length afterOpen with
      | some afterClose => ' ' :: subBlock openL closeL fuel afterClose
      | none => c :: subBlock openL closeL fuel rest
    | none => c :: subBlock openL closeL fuel rest

/-- The `<script>`-stripping pass of `normalize_text`. -/
def strip_script_blocks (s : Str) : Str :=
  subBlock ("<script".toList) ("</script>".toList) s.length s

/-- The `<style>`-stripping pass of `normalize_text`. -/
def strip_style_blocks (s : Str) : Str :=
  subBlock ("<style".toList) ("</style>".toList) s.length s

/-- Scan for the first `>`: returns whether at least one character
precedes it, and the rest after it. -/
def afterGt : Str → Option (Bool × Str)
  | [] => none
  | c :: rest =>
    if c = '>' then some (false, rest)
    else
      match afterGt rest with
      | some (_, r) => some (true, r)
      | none => none

/-- `re.sub(r"<[^>]+>", " ", s)`: a `<`, at least one non-`>` character,
and a `>` are replaced by one space; a bare `<>` or an unclosed `<` is
ordinary text. -/
def strip_tags_aux : Nat → Str → Str
  | 0, s => s
  | _ + 1, [] => []
  | fuel + 1, c :: rest =>
    if c = '<' then
      match afterGt rest with
      | some (true, after) => ' ' :: strip_tags_aux fuel after
      | _ => c :: strip_tags_aux fuel rest
    else c :: strip_tags_aux fuel rest

/-- The tag-stripping pass of `normalize_text`. -/
def strip_tags (s : Str) : Str := strip_tags_aux s.length s

/-- `re.sub(r"\s+", " ", s)`: collapse every whitespace run to a single
space. -/
def collapse_ws : Str → Str
  | [] => []
  | [c] => if isPySpace c then [' '] else [c]
  | c :: d :: rest =>
    if isPySpace c then
      if isPySpace d then collapse_ws (d :: rest)
      else ' ' :: collapse_ws (d :: rest)
    else c :: collapse_ws (d :: rest)

/-- `normalize_text` from the source. -/
def normalize_text (html : Str) : Str :=
  pyStrip (collapse_ws (strip_tags (strip_style_blocks (strip_script_blocks html))))

/-! ## Promotional-image extraction

`extract_auto_image` runs two `re.search` passes for meta tags and one
`re.findall` for `<img>` sources.  The attribute-gap `[^>]+` between the
tag name and the attribute literal is embedded by scanning for the first
occurrence of the literal with only non-`>` characters skipped (at least
one); for the simple tags the development exercises — one occurrence of
each attribute per tag — this agrees with the engine's backtracking
search. -/

/-- A double or single quote, the class `["\']`. -/
def isQuoteChar (c : Char) : Bool :=
  c == Char.ofNat 34 || c == Char.ofNat 39

/-- Scan forward for the first case-insensitive occurrence of the literal,
skipping only non-`>` characters. -/
def scanInTag (lit : Str) : Nat → Str → Option Str
  | 0, _ => none
  | _ + 1, [] => none
  | fuel + 1, c :: rest =>
    if c = '>' then none
    else
      match ciStripLit lit (c :: rest) with
      | some after => some after
      | none => scanInTag lit fuel rest

/-- The attribute gap `[^>]+lit`: at least one non-`>` character, then the
literal. -/
def scanGapLit (lit : Str) : Str → Option Str
  | [] => none
  | c :: rest => if c = '>' then none else scanInTag lit rest.length rest

/-- The quote class `["\']`: consume one quote character. -/
def stripQuote : Str → Option Str
  | [] => none
  | c :: rest => if isQuoteChar c then some rest else none

/-- The capture `([^"\']+)["\']`: a non-empty maximal run of non-quote
characters, then its closing quote; returns the capture and the rest after
the closing quote. -/
def takeCapture (s : Str) : Option (Str × Str) :=
  match s.dropWhile (fun c => !(isQuoteChar c)) with
  | [] => none
  | _ :: r =>
    let cap := s.takeWhile (fun c => !(isQuoteChar c))
    if cap = [] then none else some (cap, r)

/-- One attempted match of a meta-tag pattern
`<meta[^>]+ATTR=["\']VAL["\'][^>]+content=["\']([^"\']+)["\']` at the
current position, returning the captured URL. -/
def try_meta (attrEq valL : Str) (s : Str) : Option Str := do
  let s1 ← ciStripLit ("<meta".toList) s
  let s2 ← scanGapLit attrEq s1
  let s3 ← stripQuote s2
  let s4 ← ciStripLit valL s3
  let s5 ← stripQuote s4
  let s6 ← scanGapLit ("content=".toList) s5
  let s7 ← stripQuote s6
  let (cap, _) ← takeCapture s7
  pure cap

/-- `re.search` driver for the meta patterns: first match wins. -/
def searchMeta (attrEq valL : Str) : Nat → Str → Option Str
  | 0, _ => none
  | _ + 1, [] => none
  | fuel + 1, c :: rest =>
    match try_meta attrEq valL (c :: rest) with
    | some cap => some cap
    | none => searchMeta attrEq valL fuel rest

/-- The `og:image` search of `extract_auto_image`. -/
def og_image_search (html : Str) : Option Str :=
  searchMeta ("property=".toList) ("og:image".toList) html.length html

/-- The `twitter:image` search of `extract_auto_image`. -/
def twitter_image_search (html : Str) : Option Str :=
  searchMeta ("name=".toList) ("twitter:image".toList) html.length html

/-- One attempted match of `<img[^>]+src=["\']([^"\']+)["\']` at the
current position: the captured source and the rest after the match. -/
def try_img (s : Str) : Option (Str × Str) := do
  let s1 ← ciStripLit ("<img".toList) s
  let s2 ← scanGapLit ("src=".toList) s1
  let s3 ← stripQuote s2
  takeCapture s3

/-- `re.findall(r'<img[^>]+src=["\']([^"\']+)["\']', html, flags=re.I)`. -/
def findall_img_aux : Nat → Str → List Str
  | 0, _ => []
  | _ + 1, [] => []
  | fuel + 1, c :: rest =>
    match try_img (c :: rest) with
    | some (cap, after) => cap :: findall_img_aux fuel after
    | none => findall_img_aux fuel rest

/-- The `<img>` source list of `extract_auto_image`. -/
def findall_img (html : Str) : List Str := findall_img_aux html.length html

/-- Modelled from the spec: URL resolution is delegated to the standard
library's `urljoin` (an external collaborator outside this repository).
The spec requires relative URLs to be resolved against the fetched page's
address; the model passes absolute URLs (those containing `://`) through
unchanged — the only case this development exercises — and prefixes the
base otherwise. -/
def resolve_url (base maybe : Str) : Str :=
  if isSubstr ("://".toList) maybe then maybe else base ++ maybe

/-- The `<img>` denylist of `extract_auto_image`:
`["logo", "icon", "sprite", "blank", "loading", "common"]`. -/
def IMG_DENYLIST : List Str :=
  [("logo".toList), ("icon".toList), ("sprite".toList), ("blank".toList),
   ("loading".toList), ("common".toList)]

/-- The raster extensions accepted by `extract_auto_image`'s `<img>`
fallback: `[".jpg", ".jpeg", ".png", ".webp"]`, checked by substring
containment. -/
def IMG_EXTENSIONS : List Str :=
  [(".jpg".toList), (".jpeg".toList), (".png".toList), (".webp".toList)]

/-- The denylist test `any(x in s for x in [...])` on a lowercased source. -/
def img_denied (s : Str) : Bool := IMG_DENYLIST.any (fun x => isSubstr x s)

/-- The extension test `any(ext in s for ext in [...])` on a lowercased
source. -/
def img_has_ext (s : Str) : Bool := IMG_EXTENSIONS.any (fun x => isSubstr x s)

/-- The `<img>` fallback loop of `extract_auto_image`: skip a denied or
extension-less source, return the first survivor resolved against the page
URL. -/
def pick_img (page_url : Str) : List Str → Option Str
  | [] => none
  | src :: rest =>
    let s := pyLower src
    if img_denied s then pick_img page_url rest
    else if !(img_has_ext s) then pick_img page_url rest
    else some (resolve_url page_url (pyStrip src))

/-- `extract_auto_image` from the source: `og:image` first, then
`twitter:image`, then the first acceptable of the first 60 `<img>`
sources. -/
def extract_auto_image (html : Str) (page_url : Str) : Option Str :=
  match og_image_search html with
  | some u => some (resolve_url page_url (pyStrip u))
  | none =>
    match twitter_image_search html with
    | some u => some (resolve_url page_url (pyStrip u))
    | none => pick_img page_url ((findall_img html).take 60)

/-- A double quote, for assembling sample HTML without escape sequences. -/
def dq : Str := [Char.ofNat 34]

/-- Sample page whose only image candidate is an `og:image` meta tag
pointing at a denylisted (`logo`) URL. -/
def og_logo_html : Str :=
  ("<meta property=".toList) ++ dq ++ ("og:image".toList) ++ dq ++
  (" content=".toList) ++ dq ++ ("https://x.example/logo.png".toList) ++ dq ++
  (">".toList)

/-- Sample page whose only image is a `footer` named `<img>`. -/
def footer_img_html : Str :=
  ("<img class=x src=".toList) ++ dq ++ ("https://x.example/footer.jpg".toList) ++
  dq ++ (">".toList)

/-! ## Data model and the per-brand pipeline -/

/-- `Brand` from the source (the dataclass). -/
structure Brand where
  name : Str
  country : Str
  url : Str
  sale_type_hint : Option Str
  keywords_extra : List Str
  image : Option Str
deriving DecidableEq

/-- One entry of the `results` list `main` assembles: the output record's
fields.  The success path leaves `error` absent; the failure path carries
the stringified exception. -/
structure Record where
  brand : Str
  url : Str
  country : Str
  status : Str
  sale_type : Option Str
  matched_keyword : Option Str
  members_only : Bool
  max_discount_hint : Option Nat
  checked_at : Str
  image : Option Str
  error : Option Str
deriving DecidableEq

/-- The keyword list `main` hands to `detect_sale`:
`DEFAULT_KEYWORDS + (b.keywords_extra or [])`.  A falsy (empty) extras
list concatenates as the empty list, so plain concatenation is exact. -/
def merged_keywords (b : Brand) : List Str :=
  DEFAULT_KEYWORDS ++ b.keywords_extra

/-- Python truthiness of the optional manual image (`b.image or auto`):
`None` and the empty string fall back to the auto-extracted image. -/
def or_image (manual : Option Str) (auto : Option Str) : Option Str :=
  match manual with
  | none => auto
  | some i => if i = [] then auto else some i

/-- The body of `main`'s per-brand loop.  The `fetched` argument models
the outcome of the guarded block: `Except.ok html` when the fetch (and
every detector stage) runs to completion, `Except.error e` when any stage
of the `try` block raises an exception whose string form is `e`.  The
detectors themselves are total functions here, so the success path always
completes. -/
def process_brand (checked_at : Str) (b : Brand) (fetched : Except Str Str) :
    Record :=
  match fetched with
  | Except.ok html =>
    let text := normalize_text html
    let ds := detect_sale text (merged_keywords b)
    let members_only := detect_members_only text
    let sale_type := final_sale_type text b.sale_type_hint members_only
    let max_discount := extract_max_discount text
    let auto_image := extract_auto_image html b.url
    { brand := b.name, url := b.url, country := b.country,
      status := if ds.1 then ("sale".toList) else ("no_sale".toList),
      sale_type := sale_type, matched_keyword := ds.2,
      members_only := members_only, max_discount_hint := max_discount,
      checked_at := checked_at, image := or_image b.image auto_image,
      error := none }
  | Except.error e =>
    { brand := b.name, url := b.url, country := b.country,
      status := ("error".toList), error := some e,
      sale_type := b.sale_type_hint, matched_keyword := none,
      members_only := false, max_discount_hint := none,
      checked_at := checked_at, image := none }

/-- `main`'s loop over the brand list: one record is appended per brand,
in order, against the run-wide timestamp. -/
def run_records (checked_at : Str) (inputs : List (Brand × Except Str Str)) :
    List Record :=
  inputs.map (fun p => process_brand checked_at p.1 p.2)

/-! ## Helper lemmas -/

/-- A whitespace character is not an uppercase Latin letter. -/
theorem isPySpace_not_upper {c : Char} (h : isPySpace c = true) :
    isUpperLatinChar c = false := by
  unfold isPySpace PY_SPACE_CODES at h
  unfold isUpperLatinChar
  simp only [Bool.or_eq_true, List.contains_cons, List.contains_nil,
    beq_iff_eq, decide_eq_true_eq, Bool.false_eq_true, or_false] at h
  apply decide_eq_false
  omega

/-- A lowercase Latin letter is not an uppercase one. -/
theorem isLowerLatinChar_not_upper {c : Char} (h : isLowerLatinChar c = true) :
    isUpperLatinChar c = false := by
  unfold isLowerLatinChar at h
  unfold isUpperLatinChar
  simp only [decide_eq_true_eq] at h
  apply decide_eq_false
  omega

/-- A keyword all of whose characters are outside `[A-Z]` fails the
`re.search(r"[A-Z]", kw)` test. -/
theorem containsUpperLatin_eq_false {kw : Str}
    (h : ∀ c ∈ kw, isUpperLatinChar c = false) :
    containsUpperLatin kw = false := by
  unfold containsUpperLatin
  rw [List.any_eq_false]
  intro c hc
  simp [h c hc]

/-! ## The claims -/

/-- C2: for every text, the discount extractor returns either absent or an
integer in `[1, 95]`; every numeric candidate outside `[1, 95]` is
discarded, and among the surviving candidates the maximum is returned.
A text containing only bare `10% 20% 30%` yields 30, and
`100% satisfaction, up to 40% off` yields 40. -/
theorem extract_max_discount_bounded_max :
    (∀ t : Str,
      extract_max_discount t = none ∨
      ∃ n, extract_max_discount t = some n ∧ 1 ≤ n ∧ n ≤ 95 ∧
        n ∈ bound_filter (discount_candidates t) ∧
        ∀ m ∈ bound_filter (discount_candidates t), m ≤ n) ∧
    extract_max_discount ("10% 20% 30%".toList) = some 30 ∧
    extract_max_discount ("100% satisfaction, up to 40% off".toList) = some 40 := by
  refine ⟨fun t => ?_, by decide, by decide⟩
  cases h : extract_max_discount t with
  | none => exact Or.inl rfl
  | some n =>
    have h' : (bound_filter (discount_candidates t)).max? = some n := h
    obtain ⟨hmem, hmax⟩ := List.max?_eq_some_iff'.mp h'
    have hb := of_decide_eq_true (List.mem_filter.mp hmem).2
    exact Or.inr ⟨n, rfl, hb.1, hb.2, hmem, hmax⟩

/-- Witness for C2 at a concrete text. -/
theorem extract_max_discount_bounded_max_witness :
    extract_max_discount ("10% 20% 30%".toList) = some 30 :=
  extract_max_discount_bounded_max.2.1

/-- C1 counterexample: on `"UP TO 40% ALSO 80%"` the only tier-1
candidate is 40 (and it survives the `[1, 95]` bound), yet the extractor
returns 80 — the bare `80%` occurrence is consulted and wins, so the
first-non-empty-tier-wins cascade the claim describes is not what the
code does. -/
theorem discount_cascade_counterexample :
    findall_upto (pyUpper ("UP TO 40% ALSO 80%".toList)) = [40] ∧
    findall_maxkw (pyUpper ("UP TO 40% ALSO 80%".toList)) = [] ∧
    findall_range (pyUpper ("UP TO 40% ALSO 80%".toList)) = [] ∧
    extract_max_discount ("UP TO 40% ALSO 80%".toList) = some 80 := by
  exact ⟨by decide, by decide, by decide, by decide⟩

/-- C1 as amended: the four pattern families are pooled, not cascaded —
every bare `<n>%` candidate surviving the `[1, 95]` bound is consulted and
lower-bounds the returned maximum, so a bare percentage larger than every
tier-1 candidate does change the result. -/
theorem bare_percent_candidates_always_consulted :
    ∀ (t : Str) (n : Nat), n ∈ findall_bare (pyUpper t) → 1 ≤ n → n ≤ 95 →
      ∃ r, extract_max_discount t = some r ∧ n ≤ r ∧ 1 ≤ r ∧ r ≤ 95 := by
  intro t n hmem h1 h2
  have hc : n ∈ discount_candidates t := by
    unfold discount_candidates
    simp only [List.mem_append]
    exact Or.inr hmem
  have hf : n ∈ bound_filter (discount_candidates t) :=
    List.mem_filter.mpr ⟨hc, decide_eq_true ⟨h1, h2⟩⟩
  cases hr : (bound_filter (discount_candidates t)).max? with
  | none =>
    rw [List.max?_eq_none_iff] at hr
    rw [hr] at hf
    cases hf
  | some r =>
    obtain ⟨hrmem, hrmax⟩ := List.max?_eq_some_iff'.mp hr
    have hrb := of_decide_eq_true (List.mem_filter.mp hrmem).2
    exact ⟨r, hr, hrmax n hf, hrb.1, hrb.2⟩

/-- Witness for the amended C1 at a concrete text: the bare `80%` forces
the result up to at least 80. -/
theorem bare_percent_candidates_always_consulted_witness :
    ∃ r, extract_max_discount ("stock sale 15% 80% today".toList) = some r ∧
      80 ≤ r ∧ 1 ≤ r ∧ r ≤ 95 :=
  bare_percent_candidates_always_consulted ("stock sale 15% 80% today".toList)
    80 (by decide) (by decide) (by decide)

/-- C4: the case-folding dichotomy of the sale and members-only detectors.
A keyword with at least one uppercase Latin letter matches exactly when
its uppercased form occurs in the uppercased text — hence the match is
invariant under the text's letter case — while a keyword with no Latin
letters matches only by exact substring containment in the original text;
the sale detector applies this comparison to each non-empty keyword of any
list, and the members-only detector to its fixed phrase list. -/
theorem case_folding_dichotomy :
    (∀ text kw : Str, containsUpperLatin kw = true →
        kw_matches text kw = isSubstr (pyUpper kw) (pyUpper text)) ∧
    (∀ text kw : Str, kw.any isLatinChar = false →
        kw_matches text kw = isSubstr kw text) ∧
    (∀ t1 t2 kw : Str, containsUpperLatin kw = true → pyUpper t1 = pyUpper t2 →
        kw_matches t1 kw = kw_matches t2 kw) ∧
    (∀ (text kw : Str) (rest : List Str), kw ≠ [] →
        detect_sale text (kw :: rest) =
          if kw_matches text kw then (true, some kw)
          else detect_sale text rest) ∧
    (∀ text : Str, detect_members_only text =
        MEMBERS_ONLY_KEYWORDS.any (kw_matches text)) := by
  refine ⟨?_, ?_, ?_, ?_, fun _ => rfl⟩
  · intro text kw h
    simp [kw_matches, h]
  · intro text kw h
    rw [List.any_eq_false] at h
    have hu : containsUpperLatin kw = false := by
      apply containsUpperLatin_eq_false
      intro c hc
      have hl := h c hc
      unfold isLatinChar at hl
      simp only [Bool.or_eq_true, not_or] at hl
      simp [Bool.not_eq_true] at hl
      exact hl.1
    simp [kw_matches, hu]
  · intro t1 t2 kw h he
    simp [kw_matches, h, he]
  · intro text kw rest hk
    show (if kw = [] then detect_sale text rest
          else if kw_matches text kw then (true, some kw)
          else detect_sale text rest) = _
    rw [if_neg hk]

/-- Witness for C4: an uppercase-Latin keyword matches a lowercase text. -/
theorem case_folding_dichotomy_witness :
    kw_matches ("mega sale now".toList) ("SALE".toList) = true :=
  (case_folding_dichotomy.1 ("mega sale now".toList) ("SALE".toList)
    (by decide)).trans (by decide)

/-- C9: a keyword consisting only of lowercase Latin letters falls into
the exact-substring branch — it is compared case-sensitively against the
original text, so it does not match a text containing only its uppercased
form. -/
theorem lowercase_keyword_exact_match :
    (∀ t kw : Str, kw.all isLowerLatinChar = true →
        kw_matches t kw = isSubstr kw t) ∧
    detect_sale ("BIG SALE".toList) [("sale".toList)] = (false, none) := by
  constructor
  · intro t kw h
    rw [List.all_eq_true] at h
    have hu : containsUpperLatin kw = false := by
      apply containsUpperLatin_eq_false
      intro c hc
      exact isLowerLatinChar_not_upper (h c hc)
    simp [kw_matches, hu]
  · decide

/-- Witness for C9: `"sale"` does not match the uppercased text. -/
theorem lowercase_keyword_exact_match_witness :
    kw_matches ("BIG SALE".toList) ("sale".toList) = false :=
  (lowercase_keyword_exact_match.1 ("BIG SALE".toList) ("sale".toList)
    (by decide)).trans (by decide)

/-- C7 counterexample: a whitespace-only keyword is not skipped — the
source's `if not kw` test skips only the empty string, so the keyword
`" "` matches the space in `"big event"`, sets `is_sale`, and is returned
as the matched keyword, where the claim requires it never to match. -/
theorem whitespace_keyword_not_skipped :
    detect_sale ("big event".toList) [[' ']] = (true, some [' ']) := by
  decide

/-- C7 as amended: only an empty keyword is skipped; a non-empty
whitespace-only keyword takes the exact-substring branch and can match and
be returned. -/
theorem empty_keyword_skipped :
    (∀ (t : Str) (rest : List Str),
        detect_sale t ([] :: rest) = detect_sale t rest) ∧
    (∀ (t kw : Str) (rest : List Str), kw ≠ [] → kw.all isPySpace = true →
        detect_sale t (kw :: rest) =
          if isSubstr kw t then (true, some kw)
          else detect_sale t rest) := by
  constructor
  · intro t rest
    rfl
  · intro t kw rest hk hsp
    rw [List.all_eq_true] at hsp
    have hu : containsUpperLatin kw = false := by
      apply containsUpperLatin_eq_false
      intro c hc
      exact isPySpace_not_upper (hsp c hc)
    show (if kw = [] then detect_sale t rest
          else if kw_matches t kw then (true, some kw)
          else detect_sale t rest) = _
    rw [if_neg hk]
    simp [kw_matches, hu]

/-- Witness for the amended C7: the space keyword is compared by substring
containment against `"big event"` and matches. -/
theorem empty_keyword_skipped_witness :
    detect_sale ("big event".toList) ([' '] :: []) =
      if isSubstr [' '] ("big event".toList) then (true, some [' '])
      else detect_sale ("big event".toList) [] :=
  empty_keyword_skipped.2 ("big event".toList) [' '] [] (by decide) (by decide)

/-- A brand whose extra keywords repeat a default keyword. -/
def dup_brand : Brand :=
  { name := ("X".toList), country := ("KR".toList),
    url := ("http://x.example".toList), sale_type_hint := none,
    keywords_extra := [("SALE".toList)], image := none }

/-- C8 counterexample: the keyword list handed to the sale detector is a
plain concatenation — a brand whose `keywords_extra` repeats the default
keyword `"SALE"` yields a merged list containing `"SALE"` twice, so
duplicates are not removed. -/
theorem merged_keywords_duplicate :
    (merged_keywords dup_brand).count ("SALE".toList) = 2 := by
  decide

/-- C8 as amended: the keyword list handed to the sale detector is the
fixed default keyword set followed by the brand's `keywords_extra`, both
in their original order; duplicates are not removed. -/
theorem merged_keywords_concat_order :
    ∀ b : Brand,
      (merged_keywords b).take DEFAULT_KEYWORDS.length = DEFAULT_KEYWORDS ∧
      (merged_keywords b).drop DEFAULT_KEYWORDS.length = b.keywords_extra ∧
      ∀ kw : Str, kw ∈ merged_keywords b ↔
        kw ∈ DEFAULT_KEYWORDS ∨ kw ∈ b.keywords_extra := by
  intro b
  exact ⟨List.take_left DEFAULT_KEYWORDS b.keywords_extra,
    List.drop_left DEFAULT_KEYWORDS b.keywords_extra,
    fun kw => List.mem_append⟩

/-- Witness for the amended C8 at a concrete brand. -/
theorem merged_keywords_concat_order_witness :
    (merged_keywords dup_brand).drop DEFAULT_KEYWORDS.length =
      dup_brand.keywords_extra :=
  (merged_keywords_concat_order dup_brand).2.1

/-- C5: with no hint, the sale-type classifier scans the category phrase
lists in the fixed order clearance, refurb, season_off, members_only and
returns the first category any of whose phrases matches; if none matches
but the members-only detector fired, the result is `members_only`;
otherwise it is absent. -/
theorem sale_type_priority :
    ∀ t : Str,
      final_sale_type t none (detect_members_only t) =
        if CLEARANCE_KWS.any (kw_matches t) then some ("clearance".toList)
        else if REFURB_KWS.any (kw_matches t) then some ("refurb".toList)
        else if SEASON_OFF_KWS.any (kw_matches t) then some ("season_off".toList)
        else if MEMBERS_TYPE_KWS.any (kw_matches t) then some ("members_only".toList)
        else if detect_members_only t then some ("members_only".toList)
        else none := by
  intro t
  simp only [final_sale_type, infer_sale_type, truthyOpt, SALE_TYPE_RULES,
    first_matching_type]
  by_cases h1 : CLEARANCE_KWS.any (kw_matches t) = true <;>
    by_cases h2 : REFURB_KWS.any (kw_matches t) = true <;>
      by_cases h3 : SEASON_OFF_KWS.any (kw_matches t) = true <;>
        by_cases h4 : MEMBERS_TYPE_KWS.any (kw_matches t) = true <;>
          by_cases h5 : detect_members_only t = true <;>
            simp [h1, h2, h3, h4, h5]

/-- C6 counterexample: a denylisted meta candidate is returned, not
skipped — the `og:image` URL containing `logo` is accepted, and a
`footer`-named `<img>` source is accepted as well, because the meta path
applies no denylist at all and `footer` (like `gnb` and `favicon`) is not
in the `<img>` denylist.  The claim requires both pages to yield no
image. -/
theorem image_denylist_counterexample :
    extract_auto_image og_logo_html ("https://x.example/".toList)
        = some ("https://x.example/logo.png".toList) ∧
    extract_auto_image footer_img_html ("https://x.example/".toList)
        = some ("https://x.example/footer.jpg".toList) := by
  exact ⟨by decide, by decide⟩

/-- C6 as amended: open-graph and Twitter-card meta candidates are
returned without any denylist check; only `<img>` candidates are filtered,
and their denylist is `logo, icon, sprite, blank, loading, common`
(`favicon` URLs are still rejected through their `icon` substring, but
`gnb` and `footer` are not denylisted); an `<img>` candidate is accepted
only when its lowercased source also contains one of `.jpg`, `.jpeg`,
`.png`, `.webp`. -/
theorem image_selector_filter_behavior :
    (∀ html url u : Str, og_image_search html = some u →
        extract_auto_image html url = some (resolve_url url (pyStrip u))) ∧
    (∀ html url u : Str, og_image_search html = none →
        twitter_image_search html = some u →
        extract_auto_image html url = some (resolve_url url (pyStrip u))) ∧
    (∀ html url : Str, og_image_search html = none →
        twitter_image_search html = none →
        extract_auto_image html url = pick_img url ((findall_img html).take 60)) ∧
    (∀ (url src : Str) (rest : List Str),
        img_denied (pyLower src) = true ∨ img_has_ext (pyLower src) = false →
        pick_img url (src :: rest) = pick_img url rest) ∧
    (∀ (url src : Str) (rest : List Str),
        img_denied (pyLower src) = false → img_has_ext (pyLower src) = true →
        pick_img url (src :: rest) = some (resolve_url url (pyStrip src))) := by
  refine ⟨?_, ?_, ?_, ?_, ?_⟩
  · intro html url u h
    simp [extract_auto_image, h]
  · intro html url u h1 h2
    simp [extract_auto_image, h1, h2]
  · intro html url h1 h2
    simp [extract_auto_image, h1, h2]
  · intro url src rest h
    rcases h with h | h <;> simp [pick_img, h]
  · intro url src rest h1 h2
    simp [pick_img, h1, h2]

/-- Witness for the amended C6: the meta pass-through at a concrete page
whose `og:image` URL is denylisted. -/
theorem image_selector_filter_behavior_witness :
    extract_auto_image og_logo_html ("https://x.example/shop/".toList) =
      some (resolve_url ("https://x.example/shop/".toList)
        (pyStrip ("https://x.example/logo.png".toList))) :=
  image_selector_filter_behavior.1 og_logo_html ("https://x.example/shop/".toList)
    ("https://x.example/logo.png".toList) (by decide)

/-- C10: the `<img>` fallback examines only the first 60 sources in
document order — when the meta searches fail and every source among the
first 60 is rejected, the selector returns absent, regardless of any
acceptable source occurring later. -/
theorem img_fallback_limited_to_60 :
    ∀ html url : Str, og_image_search html = none →
      twitter_image_search html = none →
      (∀ src ∈ (findall_img html).take 60,
          img_denied (pyLower src) = true ∨ img_has_ext (pyLower src) = false) →
      extract_auto_image html url = none := by
  intro html url hog htw hall
  have key : ∀ l : List Str,
      (∀ src ∈ l, img_denied (pyLower src) = true ∨ img_has_ext (pyLower src) = false) →
      pick_img url l = none := by
    intro l
    induction l with
    | nil => intro _; rfl
    | cons s rest ih =>
      intro h
      have hrest := ih (fun x hx => h x (List.mem_cons_of_mem s hx))
      rcases h s (List.mem_cons_self s rest) with hd | he
      · simp [pick_img, hd, hrest]
      · simp [pick_img, he, hrest]
  simp [extract_auto_image, hog, htw]
  exact key _ hall

/-- A page with 60 denylisted `<img>` sources before one acceptable
source, and no meta candidates. -/
def many_imgs_html : Str :=
  (List.replicate 60
    (("<img src=".toList) ++ dq ++ ("/banner_logo.jpg".toList) ++ dq ++ (">".toList))).flatten
  ++ (("<img src=".toList) ++ dq ++ ("/promo_main.jpg".toList) ++ dq ++ (">".toList))

/-- Witness for C10: on the 61-image page the acceptable 61st source is
never reached. -/
theorem img_fallback_limited_to_60_witness :
    extract_auto_image many_imgs_html ("https://m.example/".toList) = none :=
  img_fallback_limited_to_60 many_imgs_html ("https://m.example/".toList)
    (by decide) (by decide) (by decide)

/-- C3: when the guarded per-brand block fails with exception message `e`,
the run emits for that brand exactly one record — `status = "error"`,
`sale_type` the brand's raw hint, `matched_keyword` absent, `members_only`
false, `max_discount_hint` absent, `image` absent, and the error string
`e` (non-empty whenever the exception stringifies non-empty) — and the
loop continues, so a subsequent brand whose block succeeds still produces
a normal record. -/
theorem error_record_shape (ca : Str) (b b2 : Brand) (e : Str) (he : e ≠ [])
    (html : Str) (rest : List (Brand × Except Str Str)) :
    (run_records ca ((b, Except.error e) :: (b2, Except.ok html) :: rest)).length
        = rest.length + 2 ∧
    run_records ca ((b, Except.error e) :: (b2, Except.ok html) :: rest)
        = process_brand ca b (Except.error e)
            :: process_brand ca b2 (Except.ok html) :: run_records ca rest ∧
    (process_brand ca b (Except.error e)).status = ("error".toList) ∧
    (process_brand ca b (Except.error e)).sale_type = b.sale_type_hint ∧
    (process_brand ca b (Except.error e)).matched_keyword = none ∧
    (process_brand ca b (Except.error e)).members_only = false ∧
    (process_brand ca b (Except.error e)).max_discount_hint = none ∧
    (process_brand ca b (Except.error e)).image = none ∧
    (process_brand ca b (Except.error e)).error = some e ∧
    e ≠ [] ∧
    ((process_brand ca b2 (Except.ok html)).status = ("sale".toList) ∨
      (process_brand ca b2 (Except.ok html)).status = ("no_sale".toList)) ∧
    (process_brand ca b2 (Except.ok html)).error = none := by
  refine ⟨by simp [run_records], rfl, rfl, rfl, rfl, rfl, rfl, rfl, rfl, he,
    ?_, rfl⟩
  cases hds : (detect_sale (normalize_text html) (merged_keywords b2)).1 with
  | true =>
    refine Or.inl ?_
    show (if (detect_sale (normalize_text html) (merged_keywords b2)).1
          then ("sale".toList) else ("no_sale".toList)) = _
    rw [hds]
    rfl
  | false =>
    refine Or.inr ?_
    show (if (detect_sale (normalize_text html) (merged_keywords b2)).1
          then ("sale".toList) else ("no_sale".toList)) = _
    rw [hds]
    rfl

/-- A brand used as the failing entry of the C3 witness run. -/
def err_brand : Brand :=
  { name := ("Alpha".toList), country := ("KR".toList),
    url := ("https://a.example/".toList),
    sale_type_hint := some ("clearance".toList), keywords_extra := [],
    image := none }

/-- A brand used as the succeeding entry of the C3 witness run. -/
def ok_brand : Brand :=
  { name := ("Beta".toList), country := ("KR".toList),
    url := ("https://b.example/".toList), sale_type_hint := none,
    keywords_extra := [], image := none }

/-- Witness for C3 at a concrete two-brand run: the failed brand's record
has the error shape and the following brand's record is normal. -/
theorem error_record_shape_witness :
    (process_brand ("t0".toList) err_brand (Except.error ("boom".toList))).status
        = ("error".toList) ∧
    (process_brand ("t0".toList) err_brand (Except.error ("boom".toList))).error
        = some ("boom".toList) ∧
    ((process_brand ("t0".toList) ok_brand
        (Except.ok ("<p>BIG SALE</p>".toList))).status = ("sale".toList) ∨
      (process_brand ("t0".toList) ok_brand
        (Except.ok ("<p>BIG SALE</p>".toList))).status = ("no_sale".toList)) :=
  have h := error_record_shape ("t0".toList) err_brand ok_brand
    ("boom".toList) (by decide) ("<p>BIG SALE</p>".toList) []
  ⟨h.2.2.1, h.2.2.2.2.2.2.2.2.1, h.2.2.2.2.2.2.2.2.2.2.1⟩

end SaleTracker
